import Mathlib

/-!
Shallow embedding of the `commandcenter` repository for specification
verification.  Each operation the claims refer to is translated from the
Python source into an executable Lean definition; theorems about those
definitions settle the claims.
-/

namespace CommandCenter

/-! ### String helpers (Python `str.lower` / `str.strip` for the ASCII
inputs this repository handles) -/

/-- ASCII lowercase of one character. -/
def charLower (c : Char) : Char :=
  if 65 ≤ c.toNat ∧ c.toNat ≤ 90 then Char.ofNat (c.toNat + 32) else c

/-- Python `str.lower()` (ASCII). -/
def strLower (s : String) : String := ⟨s.data.map charLower⟩

/-- Python whitespace characters recognized by `str.strip()`. -/
def isSpaceChar (c : Char) : Bool :=
  c.toNat = 32 || c.toNat = 9 || c.toNat = 10 || c.toNat = 13 ||
  c.toNat = 11 || c.toNat = 12

/-- Drop leading whitespace characters. -/
def dropLeading : List Char → List Char
  | [] => []
  | c :: cs => if isSpaceChar c then dropLeading cs else c :: cs

/-- Python `str.strip()`. -/
def strStrip (s : String) : String :=
  ⟨(dropLeading (dropLeading s.data.reverse).reverse)⟩

/-! ### Traxx response handling (`sources/traxx/util.py`) -/

/-- Errors that `handle_request` can raise: the re-raised
`aiohttp.ClientResponseError` (carrying the HTTP status), or the dedicated
`TraxxExpiredSession` error from `sources/traxx/exceptions.py`. -/
inductive TraxxError where
  | clientResponseError (status : Nat)
  | expiredSession
  deriving DecidableEq

/-- Result of `handle_request`: an exception, `None` (no data or suppressed
HTTP error), or parsed CSV rows. -/
inductive TraxxResult where
  | raised (e : TraxxError)
  | noData
  | rows (rs : List (List String))
  deriving DecidableEq

/-- Model of Python `csv.reader` over the decoded body: rows split on
newlines, fields split on commas.  The claims only depend on *whether* CSV
rows are produced, never on their content. -/
def csvReader (content : String) : List (List String) :=
  (content.splitOn "\n").map (fun line => line.splitOn ",")

/-- The HTML document marker tested by `handle_request`. -/
def docTypeMarker : String := "<!DOCTYPE html>"

/-- `pat` is a prefix of `s` (on character lists). -/
def charsStartWith : List Char → List Char → Bool
  | [], _ => true
  | _ :: _, [] => false
  | p :: ps, c :: cs => p = c && charsStartWith ps cs

/-- `pat` occurs as a contiguous subsequence of `s`. -/
def charsContain (pat : List Char) : List Char → Bool
  | [] => pat.isEmpty
  | c :: cs => charsStartWith pat (c :: cs) || charsContain pat cs

/-- `content` contains the marker as a substring (Python `b"<!DOCTYPE html>" in content`). -/
def containsDocType (content : String) : Bool :=
  charsContain docTypeMarker.data content.data

/-- `handle_request` from `sources/traxx/util.py`.  `response.raise_for_status()`
raises `ClientResponseError` for any status `>= 400`; the error is re-raised
when `raise_for_status` is true, else the response is released and `None`
returned.  Only when the status check passes is the body read: empty body
yields `None`, a body containing `<!DOCTYPE html>` raises
`TraxxExpiredSession`, anything else is parsed as CSV rows. -/
def handle_request (status : Nat) (content : String) (raise_for_status : Bool) :
    TraxxResult :=
  if 400 ≤ status then
    if raise_for_status then .raised (.clientResponseError status) else .noData
  else if content = "" then .noData
  else if containsDocType content then .raised .expiredSession
  else .rows (csvReader content)

/-! ### PI-Web subscription model (`sources/pi_web/models.py`) -/

/-- `WebIdType` enumeration. -/
inductive WebIdType where
  | full
  | idOnly
  | pathOnly
  | localIdOnly
  | defaultIdOnly
  deriving DecidableEq

/-- `PIWebObjType` enumeration. -/
inductive PIWebObjType where
  | point
  | attribute
  | element
  deriving DecidableEq

/-- Coercion of a raw string to the `PIWebObjType` enum (pydantic enum field
validation: any string that is not a member value is a `ValueError`). -/
def PIWebObjType.parse (s : String) : Except String PIWebObjType :=
  if s = "point" then .ok .point
  else if s = "attribute" then .ok .attribute
  else if s = "element" then .ok .element
  else .error "value is not a valid enumeration member"

/-- `restrict_obj_type` from `sources/pi_web/models.py`. -/
def restrict_obj_type (v : PIWebObjType) : Except String PIWebObjType :=
  if v ≠ PIWebObjType.point then
    .error "Only obj_type point is currently supported"
  else .ok v

/-- The `_restrict_source` validator on `PIWebSubscription.source`
(`v.lower().strip()`, then compared against the literal). -/
def restrict_source (v : String) : Except String String :=
  let v := strStrip (strLower v)
  if v ≠ "pi_web" then .error "Invalid source for PIWebSubscription"
  else .ok v

/-- `PIWebSubscription` record. -/
structure PIWebSubscription where
  web_id : String
  name : Option String
  web_id_type : WebIdType
  obj_type : PIWebObjType
  source : String
  deriving DecidableEq

/-- Construction of a `PIWebSubscription` (pydantic validation pipeline).

The class body of `PIWebSubscription` contains the bare expression
`validator("obj_type", allow_reuse=True)(restrict_obj_type)` whose result is
never bound to a class attribute; pydantic v1 collects validators by scanning
the class namespace, so `restrict_obj_type` is never registered and is *not*
applied during construction.  Only the enum coercion on `obj_type` and the
registered `_restrict_source` validator on `source` run. -/
def mkPIWebSubscription (web_id : String) (name : Option String)
    (web_id_type : WebIdType) (obj_type : String) (source : String) :
    Except String PIWebSubscription := do
  let ot ← PIWebObjType.parse obj_type
  let src ← restrict_source source
  .ok ⟨web_id, name, web_id_type, ot, src⟩

/-! ### File-cookie auth flow (`util/aiohttp/flows/filecookie.py`) -/

/-- Errors raised by `FileCookieAuthFlow.__init__`: `FileNotFoundError` for a
missing file, `ValueError` for an invalid file type. -/
inductive FileCookieError where
  | fileNotFound
  | invalidFileType (suffix : String)
  deriving DecidableEq

/-- `FileCookieAuthFlow.__init__`: the path must exist, and
`path.suffix.lower()` must be one of `.json`, `.toml`, `.yml` (note: the
tuple in the source does *not* include `.yaml`).  `present` models
`path.exists()` and `suffix` models `path.suffix`. -/
def FileCookieAuthFlow_init (present : Bool) (suffix : String) :
    Except FileCookieError String :=
  if !present then .error .fileNotFound
  else if !([".json", ".toml", ".yml"].contains (strLower suffix)) then
    .error (.invalidFileType suffix)
  else .ok suffix

/-! ### Domain-controller discovery (`auth/discovery.py`) -/

/-- Lexicographic strict order on character lists by code point (Python `str`
comparison). -/
def charsLt : List Char → List Char → Bool
  | [], [] => false
  | [], _ :: _ => true
  | _ :: _, [] => false
  | a :: as, b :: bs => a.toNat < b.toNat || (a.toNat = b.toNat && charsLt as bs)

/-- Python string `<`. -/
def strLt (a b : String) : Bool := charsLt a.data b.data

/-- A mean connect round-trip time: either an exact mean kept as
`total-elapsed / number-of-attempts` (Python computes `sum(rtt)/len(rtt)` as a
float; the fraction is represented exactly here), or `math.inf` for an
unreachable host. -/
inductive RTT where
  | mean (total : Nat) (count : Nat)
  | inf
  deriving DecidableEq

/-- Strict order on RTTs: mean comparison by cross-multiplication
(`t1/c1 < t2/c2` with positive counts), `inf` greater than every mean. -/
def RTT.lt : RTT → RTT → Bool
  | .mean t1 c1, .mean t2 c2 => t1 * c2 < t2 * c1
  | .mean _ _, .inf => true
  | .inf, _ => false

/-- RTT numeric equality. -/
def RTT.beq : RTT → RTT → Bool
  | .mean t1 c1, .mean t2 c2 => t1 * c2 = t2 * c1
  | .inf, .inf => true
  | _, _ => false

/-- Lexicographic `<=` on the `(rtt, host)` tuples that
`sorted(zip(rtt, hosts))` compares. -/
def rttHostLe (a b : RTT × String) : Bool :=
  RTT.lt a.1 b.1 || (RTT.beq a.1 b.1 && !(strLt b.2 a.2))

/-- Accumulating loop of `get_rtt`: each entry of `outcomes` is one TCP
connect attempt, `none` for `socket.error` (whereupon the function returns
`math.inf` immediately, skipping remaining attempts) and `some t` for a
successful connect with elapsed time `t`. -/
def get_rtt_go : List (Option Nat) → List Nat → Except String RTT
  | [], acc =>
    if acc.length = 0 then .error "ZeroDivisionError"
    else .ok (.mean acc.sum acc.length)
  | none :: _, _ => .ok .inf
  | some t :: rest, acc => get_rtt_go rest (acc ++ [t])

/-- `get_rtt` from `auth/discovery.py`: mean connect latency over
`mean_rtt_attempts` attempts, `inf` on the first failed connect,
`ZeroDivisionError` when called with zero attempts. -/
def get_rtt (outcomes : List (Option Nat)) : Except String RTT :=
  get_rtt_go outcomes []

/-- `NoHostsFound` from `auth/exceptions.py`, carrying the domain. -/
inductive DiscoveryError where
  | noHostsFound (domain : String)
  deriving DecidableEq

/-- RTT-ranking core of `discover_domain_controllers` (lines 95-112 of
`auth/discovery.py`): the candidate hosts parsed from the `nltest` output and
their measured RTTs are passed in (the subprocess and socket I/O are
external).  Raises `NoHostsFound` for an empty candidate list; otherwise
performs `sorted(zip(rtt, hosts))` — a stable sort on `(rtt, host)` pairs
compared lexicographically — unzips, and truncates to `limit`. -/
def discover_domain_controllers (domain : String) (hosts : List String)
    (rtts : List RTT) (limit : Nat) : Except DiscoveryError (List String) :=
  if hosts.isEmpty then .error (.noHostsFound domain)
  else
    .ok ((((rtts.zip hosts).insertionSort
      (fun a b => rttHostLe a b = true)).map Prod.snd).take limit)

/-! ### PI-Web connection packing (`sources/pi_web/integration.py`) -/

/-- The `while True` loop of `PIWebIntegration._create_connections` with bin
size `m + 1`: if at most `m + 1` subscriptions remain they form the last
connection, otherwise the first `m + 1` form one connection and the loop
continues on the rest.  `fuel` bounds the iteration count; every iteration
removes `m + 1 ≥ 1` subscriptions, so `l.length` iterations always suffice
and the `fuel = 0` case is never reached from `chunkGo`. -/
def chunkFuel (m : Nat) : Nat → List α → List (List α)
  | 0, l => [l]
  | fuel + 1, l =>
    if l.length ≤ m + 1 then [l]
    else l.take (m + 1) :: chunkFuel m fuel (l.drop (m + 1))

/-- The `_create_connections` loop on list `l` with bin size `m + 1`. -/
def chunkGo (m : Nat) (l : List α) : List (List α) :=
  chunkFuel m l.length l

/-- The subscription lists handed to the connections created by
`PIWebIntegration._create_connections` for the input `subs`, in creation
order.  Faithful for `max_subscriptions ≥ 1`; the configuration layer bounds
`max_subscriptions > 0` (with `0` the Python loop would never terminate). -/
def create_connections_bins (max_subscriptions : Nat) (subs : List α) :
    List (List α) :=
  chunkGo (max_subscriptions - 1) subs

/-! ### Directory authentication backend (`auth/backend.py`, `auth/client.py`) -/

/-- The directory user fields the backend consumes (`auth/models.py`):
the backend builds `AuthCredentials(user.scopes)` and returns the user. -/
structure ADUser where
  scopes : List String
  username : String
  deriving DecidableEq

/-- Outcome of one `client.get_user` call: the user entry, a bonsai
`LDAPError` (protocol-level), or any other exception (carried as a value of
the cause type `ε`; `UserNotFound` is such a non-protocol error). -/
inductive GetUserOutcome (ε : Type) where
  | success (u : ADUser)
  | ldapError
  | unexpected (e : ε)
  deriving DecidableEq

/-- Result of `ActiveDirectoryBackend.authenticate`: `None` (anonymous), an
`(AuthCredentials, user)` pair, the fatal `AuthenticationError` wrapping an
unexpected cause, or the `AuthenticationError` raised when every controller
attempt failed with a protocol error. -/
inductive AuthResult (ε : Type) where
  | anonymous
  | ok (credentials : List String) (u : ADUser)
  | fatalError (cause : ε)
  | unreachable
  deriving DecidableEq

/-- `ActiveDirectoryClient.rotate`: `deque.rotate(1)` on the controller (and
base) sequence, a right rotation moving the last element to the front. -/
def dequeRotate1 (l : List α) : List α :=
  match l.reverse with
  | [] => []
  | x :: rest => x :: rest.reverse

/-- Python `str.partition(" ")` as used by
`get_authorization_scheme_param`: the characters before the first space and,
when a space exists, the characters after it. -/
def breakAtSpace : List Char → List Char × Option (List Char)
  | [] => ([], none)
  | c :: cs =>
    if c.toNat = 32 then ([], some cs)
    else
      let p := breakAtSpace cs
      (c :: p.1, p.2)

/-- Scheme/parameter split of an `Authorization` header value. -/
def schemeParam (s : String) : String × String :=
  let p := breakAtSpace s.data
  (⟨p.1⟩, ⟨(p.2).getD []⟩)

/-- The `for _ in range(len(self.client))` retry loop of
`ActiveDirectoryBackend.authenticate`, with `fuel` the loop bound
`len(client)` fixed at entry.  The second component counts the `get_user`
attempts made (the loop is otherwise a direct transcription): success returns
`(AuthCredentials(user.scopes), user)`; an `LDAPError` rotates the client and
retries; any other exception raises the fatal wrapped `AuthenticationError`;
running out of iterations raises the unreachable-controllers
`AuthenticationError` (the `for`/`else` branch). -/
def ad_auth_loop {ε : Type} (getUser : String → GetUserOutcome ε) :
    Nat → List String → AuthResult ε × Nat
  | 0, _ => (.unreachable, 0)
  | _ + 1, [] => (.unreachable, 0)
  | n + 1, c :: cs =>
    match getUser c with
    | .success u => (.ok u.scopes u, 1)
    | .unexpected e => (.fatalError e, 1)
    | .ldapError =>
      let p := ad_auth_loop getUser n (dequeRotate1 (c :: cs))
      (p.1, p.2 + 1)

/-- `ActiveDirectoryBackend.authenticate`: read the `Authorization` header
(absent or empty ⇒ anonymous), split scheme/token, require scheme
case-insensitively `bearer`, validate the token into a username through the
injected handler (`none` ⇒ anonymous), then run the controller retry loop.
`getUser controller username` gives the outcome of `client.get_user(username)`
while `controller` is primary. -/
def backend_authenticate {ε : Type} (authorization : Option String)
    (validate : String → Option String) (controllers : List String)
    (getUser : String → String → GetUserOutcome ε) : AuthResult ε × Nat :=
  match authorization with
  | none => (.anonymous, 0)
  | some a =>
    if a = "" then (.anonymous, 0)
    else
      let sp := schemeParam a
      if strLower sp.1 ≠ "bearer" then (.anonymous, 0)
      else
        match validate sp.2 with
        | none => (.anonymous, 0)
        | some username =>
          ad_auth_loop (fun c => getUser c username) controllers.length controllers

/-! ### Traxx subscription and dedup filter (`sources/traxx/models.py`) -/

/-- `SensorTypes` enumeration. -/
inductive SensorTypes where
  | proximity
  | volts
  | temp
  | current
  | ambient
  deriving DecidableEq

/-- `TraxxSubscription` record. -/
structure TraxxSubscription where
  asset_id : Int
  sensor_id : String
  sensor_type : SensorTypes
  source : String
  deriving DecidableEq

/-- `TraxxSensorItem`: a naive timestamp (modelled as an integer epoch
instant; ordering is all the claims use) and a float sample value (modelled
as an exact rational). -/
structure TraxxSensorItem where
  timestamp : Int
  value : Rat
  deriving DecidableEq

/-- `TraxxSensorMessage`: subscription plus item list. -/
structure TraxxSensorMessage where
  subscription : TraxxSubscription
  items : List TraxxSensorItem
  deriving DecidableEq

/-- `TraxxSensorMessage.filter`: keep the items whose timestamp is strictly
after `last_timestamp` (`item.timestamp > last_timestamp`). -/
def TraxxSensorMessage.filter (m : TraxxSensorMessage) (last_timestamp : Int) :
    TraxxSensorMessage :=
  { m with items := m.items.filter (fun item => last_timestamp < item.timestamp) }

/-! ### Dial-out history stream (`telalert/stream.py`) -/

/-- A persisted dial-out document as read back from storage
(`DialoutDocument` in `telalert/models.py`; the serialized message payload is
flattened into its four `message.get(...)` fields, each optional because
`dict.get` returns `None` for a missing key). -/
structure DialoutDocument where
  message_msg : Option String
  message_groups : Option (List String)
  message_destinations : Option (List String)
  message_subject : Option String
  idempotency_key : String
  service : String
  posted_by : String
  timestamp : Int
  deriving DecidableEq

/-- Abstract rendering of `datetime.isoformat()` for the integer-modelled
naive timestamps; the claims never inspect the concrete format. -/
def isoformatInt (t : Int) : String := toString t

/-- The flat row yielded by `get_alerts`. -/
structure AlertRow where
  timestamp : String
  posted_by : String
  service : String
  idempotency_key : String
  subject : Option String
  groups : Option (List String)
  destinations : Option (List String)
  msg : Option String
  deriving DecidableEq

/-- Row construction inside the `get_alerts` loop. -/
def DialoutDocument.toRow (d : DialoutDocument) : AlertRow :=
  ⟨isoformatInt d.timestamp, d.posted_by, d.service, d.idempotency_key,
    d.message_subject, d.message_groups, d.message_destinations, d.message_msg⟩

/-- The `ValueError` raised by `get_alerts` on an invalid range. -/
inductive GetAlertsError where
  | invalidRange
  deriving DecidableEq

/-- `get_alerts` from `telalert/stream.py`.  `collection` is the stored
document set, `now` the value of `datetime.utcnow()`.  `end_time or now`
defaults a missing end time to `now` (a `datetime` is never falsy); a range
with `start_time >= end_time` raises `ValueError` before the Mongo `find`
query; otherwise the documents matching
`{timestamp: {$gte: start, $lte: end}}` are yielded sorted ascending by
timestamp, each converted to a flat row. -/
def get_alerts (collection : List DialoutDocument) (start_time : Int)
    (end_time : Option Int) (now : Int) : Except GetAlertsError (List AlertRow) :=
  let endT := end_time.getD now
  if start_time ≥ endT then .error .invalidRange
  else
    .ok ((((collection.filter
        (fun d => start_time ≤ d.timestamp && d.timestamp ≤ endT)).insertionSort
        (fun a b => a.timestamp ≤ b.timestamp)).map DialoutDocument.toRow))

/-! ### TelAlert message and dispatch (`telalert/models.py`, `telalert/client.py`) -/

/-- `TelAlertMessage` record: `groups` and `destinations` are
`Sequence[str] | None` fields, so an explicit `None` is a legal value
distinct from the empty-list default. -/
structure TelAlertMessage where
  msg : String
  groups : Option (List String)
  destinations : Option (List String)
  subject : Option String
  deriving DecidableEq

/-- Python falsiness of a `Sequence[str] | None` value (`not groups`). -/
def isFalsyOptList (g : Option (List String)) : Bool :=
  match g with
  | none => true
  | some l => l.isEmpty

/-- Construction of a `TelAlertMessage`.  An argument given as `none` was
omitted and takes the `default_factory=list` default; `some v` is an
explicitly passed value (possibly `None` itself).  The `_validate_message`
root validator rejects the message when both fields are falsy. -/
def mkTelAlertMessage (msg : String) (groups : Option (Option (List String)))
    (destinations : Option (Option (List String))) (subject : Option String) :
    Except String TelAlertMessage :=
  let g := match groups with | none => some [] | some v => v
  let d := match destinations with | none => some [] | some v => v
  if isFalsyOptList g && isFalsyOptList d then
    .error "Must provide either a group or destination to deliver message"
  else .ok ⟨msg, g, d, subject⟩

/-- The `TypeError` Python raises when iterating `None`. -/
inductive PyTypeError where
  | noneTypeNotIterable
  deriving DecidableEq

/-- `TelAlertClient.send_alert` up to process dispatch: builds one command
per group (`-g`) then one per destination (`-i`).  Iterating a `None` field
raises `TypeError` before any command is built or dispatched.  The returned
list is the batch of commands subsequently executed concurrently. -/
def send_alert (path host : String) (m : TelAlertMessage) :
    Except PyTypeError (List (List String)) :=
  match m.groups with
  | none => .error .noneTypeNotIterable
  | some gs =>
    match m.destinations with
    | none => .error .noneTypeNotIterable
    | some ds =>
      let subject := match m.subject with | none => "" | some s => s
      .ok ((gs.map (fun g =>
          [path, "-g", g, "-m", m.msg, "-host", host, "-subject", subject])) ++
        (ds.map (fun d =>
          [path, "-i", d, "-m", m.msg, "-host", host, "-subject", subject])))

/-! ### PI-Web frame processing (`sources/pi_web/models.py`,
`sources/pi_web/connection.py`) -/

/-- A parsed JSON value inside a PI-Web frame (numeric payloads are
abstracted to integers; no claim inspects numeric content). -/
inductive PIValue where
  | null
  | str (s : String)
  | num (n : Int)
  deriving DecidableEq

/-- A raw `Value` field before the `_format_content` root validator: possibly
a compound object whose `Name` member is kept. -/
inductive PIRawValue where
  | null
  | str (s : String)
  | num (n : Int)
  | obj (nameField : String)
  deriving DecidableEq

/-- `_format_content`: the value of a not-`good` item is forced to `None`; a
compound value is reduced to its `Name` member. -/
def format_content (raw : PIRawValue) (good : Bool) : PIValue :=
  if !good then .null
  else
    match raw with
    | .null => .null
    | .str s => .str s
    | .num n => .num n
    | .obj name => .str name

/-- `PIWebMessageSubItem` after validation: naive timestamp (integer
instant), formatted value, and the `good` quality flag. -/
structure PIWebMessageSubItem where
  timestamp : Int
  value : PIValue
  good : Bool
  deriving DecidableEq

/-- Construction of a sub-item from frame fields (timestamp parsing reduced
to the already-parsed instant; `_format_content` applied). -/
def mkPIWebMessageSubItem (timestamp : Int) (raw : PIRawValue) (good : Bool) :
    PIWebMessageSubItem :=
  ⟨timestamp, format_content raw good, good⟩

/-- `PIWebMessageSubItem.dict`: the serialized form is exactly
`{"timestamp": ..., "value": ...}`. -/
def PIWebMessageSubItem.dict (i : PIWebMessageSubItem) : List (String × PIValue) :=
  [("timestamp", .str (isoformatInt i.timestamp)), ("value", i.value)]

/-- `PIWebMessageItem`: one top-level frame item for a WebId. -/
structure PIWebMessageItem where
  name : String
  web_id : String
  items : List PIWebMessageSubItem
  deriving DecidableEq

/-- `PIWebSubscriptionMessage` as published on the queue: the subscription
and the serialized (`dict()`) items. -/
structure PIWebSubscriptionMessage where
  subscription : PIWebSubscription
  items : List (List (String × PIValue))
  deriving DecidableEq

/-- The per-frame publishing loop of `PIWebConnection.run` (lines 125-135):
for each frame item, look its `web_id` up in the connection index (the
`assert` aborts the loop when absent — second component `false`), and publish
a `PIWebSubscriptionMessage` whose items are the `dict()` forms of the
sub-items. -/
def processFrame (index : String → Option PIWebSubscription) :
    List PIWebMessageItem → List PIWebSubscriptionMessage × Bool
  | [] => ([], true)
  | item :: rest =>
    match index item.web_id with
    | none => ([], false)
    | some sub =>
      let p := processFrame index rest
      (⟨sub, item.items.map PIWebMessageSubItem.dict⟩ :: p.1, p.2)

/-! ## Theorems -/

/-- C1 (counterexample): an HTTP error status takes precedence over the
`<!DOCTYPE html>` check — a 500 response whose body contains the marker
raises the re-raised `ClientResponseError`, not the session-expired error,
refuting "regardless of the HTTP status code of the response". -/
theorem handle_request_error_status_counterexample :
    containsDocType "<!DOCTYPE html>" = true ∧
    handle_request 500 "<!DOCTYPE html>" true =
      TraxxResult.raised (TraxxError.clientResponseError 500) ∧
    handle_request 500 "<!DOCTYPE html>" true ≠
      TraxxResult.raised TraxxError.expiredSession :=
  ⟨rfl, rfl, by decide⟩

/-- C1 (amended): whenever the HTTP-status check passes (status below 400),
a body containing `<!DOCTYPE html>` yields the dedicated session-expired
error; and for every status and `raise_for_status` flag, a body containing
the marker never yields parsed CSV rows. -/
theorem handle_request_doctype_amended (status : Nat) (content : String)
    (rfs : Bool) :
    (status < 400 → containsDocType content = true →
      handle_request status content rfs = .raised .expiredSession) ∧
    (containsDocType content = true →
      ∀ rs, handle_request status content rfs ≠ .rows rs) := by
  have hmarker : ∀ c : String, containsDocType c = true → c ≠ "" := by
    intro c hc h
    subst h
    exact absurd hc (by decide)
  constructor
  · intro hs hm
    unfold handle_request
    rw [if_neg (by omega), if_neg (hmarker _ hm), if_pos hm]
  · intro hm rs
    unfold handle_request
    by_cases h4 : 400 ≤ status
    · rw [if_pos h4]
      cases rfs <;> simp
    · rw [if_neg h4, if_neg (hmarker _ hm), if_pos hm]
      simp

/-- C1 (witness): instantiation of the amended theorem at a concrete
session-expired login response. -/
theorem handle_request_doctype_amended_witness :
    handle_request 200 "<!DOCTYPE html>" true =
      TraxxResult.raised TraxxError.expiredSession ∧
    handle_request 200 "<!DOCTYPE html>" true ≠
      TraxxResult.rows (csvReader "<!DOCTYPE html>") :=
  ⟨(handle_request_doctype_amended 200 "<!DOCTYPE html>" true).1 (by decide) (by decide),
   (handle_request_doctype_amended 200 "<!DOCTYPE html>" true).2 (by decide) _⟩

/-- C2 (code evaluation at the failing input): constructing a
`PIWebSubscription` with `obj_type` equal to `attribute` (or `element`)
succeeds, because the `validator(...)(restrict_obj_type)` class-body
expression is never assigned and so never registered; `restrict_obj_type`
itself would have rejected the value, showing the intended behaviour. -/
theorem obj_type_validator_not_registered_eval :
    mkPIWebSubscription "w1" none WebIdType.full "attribute" "pi_web" =
      .ok ⟨"w1", none, WebIdType.full, PIWebObjType.attribute, "pi_web"⟩ ∧
    mkPIWebSubscription "w1" none WebIdType.full "element" "pi_web" =
      .ok ⟨"w1", none, WebIdType.full, PIWebObjType.element, "pi_web"⟩ ∧
    mkPIWebSubscription "w1" none WebIdType.full "point" "pi_web" =
      .ok ⟨"w1", none, WebIdType.full, PIWebObjType.point, "pi_web"⟩ ∧
    restrict_obj_type PIWebObjType.attribute =
      .error "Only obj_type point is currently supported" :=
  ⟨rfl, rfl, rfl, rfl⟩

/-- C3 (counterexample): an existing file with extension `.yaml` is rejected
with `ValueError`, refuting "construction succeeds for every existing file
whose extension is .json, .toml, .yml, or .yaml". -/
theorem filecookie_yaml_counterexample :
    FileCookieAuthFlow_init true ".yaml" =
      .error (.invalidFileType ".yaml") ∧
    ∀ s, FileCookieAuthFlow_init true ".yaml" ≠ Except.ok s := by
  refine ⟨rfl, ?_⟩
  intro s h
  rw [show FileCookieAuthFlow_init true ".yaml" =
    .error (.invalidFileType ".yaml") from rfl] at h
  exact Except.noConfusion h

/-- C3 (amended): construction succeeds exactly for an existing file whose
lowercased extension is `.json`, `.toml`, or `.yml`; a missing file is a
`FileNotFoundError` and any other extension (including `.yaml`) is a
`ValueError`. -/
theorem filecookie_init_amended (present : Bool) (suffix : String) :
    (present = false →
      FileCookieAuthFlow_init present suffix = .error .fileNotFound) ∧
    ([".json", ".toml", ".yml"].contains (strLower suffix) = true →
      present = true → FileCookieAuthFlow_init present suffix = .ok suffix) ∧
    ([".json", ".toml", ".yml"].contains (strLower suffix) = false →
      present = true →
      FileCookieAuthFlow_init present suffix = .error (.invalidFileType suffix)) := by
  refine ⟨?_, ?_, ?_⟩
  · intro h
    subst h
    rfl
  · intro hc hp
    subst hp
    unfold FileCookieAuthFlow_init
    rw [hc]
    rfl
  · intro hc hp
    subst hp
    unfold FileCookieAuthFlow_init
    rw [hc]
    rfl

/-- C3 (witness): instantiation of the amended theorem at the three
concrete cases. -/
theorem filecookie_init_amended_witness :
    FileCookieAuthFlow_init true ".JSON" = .ok ".JSON" ∧
    FileCookieAuthFlow_init false ".json" = .error .fileNotFound ∧
    FileCookieAuthFlow_init true ".txt" = .error (.invalidFileType ".txt") :=
  ⟨(filecookie_init_amended true ".JSON").2.1 (by decide) rfl,
   (filecookie_init_amended false ".json").1 rfl,
   (filecookie_init_amended true ".txt").2.2 (by decide) rfl⟩

/-- C4 (counterexample): with the latencies given in the claim and the default
`limit = 3`, discovery does *not* return `[hostB, hostA]` — the unreachable
host is ranked last with RTT infinity, not excluded. -/
theorem discovery_ranking_counterexample :
    discover_domain_controllers "AD" ["hostA", "hostB", "hostC"]
      [.mean 150 3, .mean 30 3, .inf] 3 ≠ .ok ["hostB", "hostA"] := by
  intro h
  rw [show discover_domain_controllers "AD" ["hostA", "hostB", "hostC"]
    [.mean 150 3, .mean 30 3, .inf] 3 = .ok ["hostB", "hostA", "hostC"] from rfl] at h
  injection h with h
  exact absurd h (by decide)

/-- C4 (amended): with mean RTTs 50ms (hostA), 10ms (hostB) and infinity
(hostC unreachable), discovery with the default `limit = 3` returns
`[hostB, hostA, hostC]` — ascending by mean RTT with the unreachable host
ranked last and the list truncated to `limit` (so `[hostB, hostA]` only for
`limit = 2`). -/
theorem discovery_ranking_amended :
    get_rtt [some 50, some 50, some 50] = .ok (.mean 150 3) ∧
    get_rtt [some 10, some 10, some 10] = .ok (.mean 30 3) ∧
    get_rtt [none, none, none] = .ok .inf ∧
    discover_domain_controllers "AD" ["hostA", "hostB", "hostC"]
      [.mean 150 3, .mean 30 3, .inf] 3 = .ok ["hostB", "hostA", "hostC"] ∧
    discover_domain_controllers "AD" ["hostA", "hostB", "hostC"]
      [.mean 150 3, .mean 30 3, .inf] 2 = .ok ["hostB", "hostA"] :=
  ⟨rfl, rfl, rfl, rfl, rfl⟩

/-- C9: constructing a `TelAlertMessage` with `groups` explicitly `None` and
a non-empty destination list passes validation and keeps `groups = None`
(the empty-list default is not substituted); `send_alert` on such a message
then raises `TypeError` iterating `message.groups`, before any command is
built or dispatched to the destinations. -/
theorem telalert_none_groups (msg : String) (ds : List String) (hds : ds ≠ [])
    (subject : Option String) (path host : String) :
    mkTelAlertMessage msg (some none) (some (some ds)) subject =
      .ok ⟨msg, none, some ds, subject⟩ ∧
    send_alert path host ⟨msg, none, some ds, subject⟩ =
      .error .noneTypeNotIterable := by
  have hempty : ds.isEmpty = false := by
    cases ds with
    | nil => exact absurd rfl hds
    | cons a l => rfl
  exact ⟨by simp [mkTelAlertMessage, isFalsyOptList, hempty], rfl⟩

/-- C9 (witness): instantiation at a concrete message with one destination. -/
theorem telalert_none_groups_witness :
    mkTelAlertMessage "m1" (some none) (some (some ["CEO"])) none =
      .ok ⟨"m1", none, some ["CEO"], none⟩ ∧
    send_alert "telalert.exe" "host1" ⟨"m1", none, some ["CEO"], none⟩ =
      .error .noneTypeNotIterable :=
  telalert_none_groups "m1" ["CEO"] (by decide) none "telalert.exe" "host1"

/-- C7: filtering a Traxx sensor message against a watermark `t` keeps
exactly the items with timestamp strictly greater than `t`, in their
original order (the filtered list is a sublist of the original), leaving the
subscription unchanged; in particular three ascending items filtered at the
middle timestamp leave exactly the last item. -/
theorem traxx_filter_watermark (m : TraxxSensorMessage) (t : Int) :
    (m.filter t).subscription = m.subscription ∧
    ((m.filter t).items).Sublist m.items ∧
    (∀ it ∈ (m.filter t).items, t < it.timestamp) ∧
    (∀ it ∈ m.items, t < it.timestamp → it ∈ (m.filter t).items) ∧
    (∀ i1 i2 i3 : TraxxSensorItem, i1.timestamp ≤ i2.timestamp →
      i2.timestamp < i3.timestamp → ∀ sub,
      (TraxxSensorMessage.filter ⟨sub, [i1, i2, i3]⟩ i2.timestamp).items = [i3]) := by
  refine ⟨rfl, List.filter_sublist _, ?_, ?_, ?_⟩
  · intro it hit
    have := (List.mem_filter.mp hit).2
    simpa using this
  · intro it hit hlt
    exact List.mem_filter.mpr ⟨hit, by simpa using hlt⟩
  · intro i1 i2 i3 h12 h23 sub
    show List.filter (fun item => decide (i2.timestamp < item.timestamp))
      [i1, i2, i3] = [i3]
    rw [List.filter_cons_of_neg (by simpa using not_lt.mpr h12),
        List.filter_cons_of_neg (by simp),
        List.filter_cons_of_pos (by simpa using h23),
        List.filter_nil]

/-- C7 (witness): instantiation at items with timestamps `[1, 2, 3]` and
watermark `2`: exactly the item at `3` survives. -/
theorem traxx_filter_watermark_witness :
    (TraxxSensorMessage.filter
      ⟨⟨1, "s1", SensorTypes.proximity, "traxx"⟩, [⟨1, 0⟩, ⟨2, 0⟩, ⟨3, 0⟩]⟩ 2).items
      = [⟨3, 0⟩] :=
  (traxx_filter_watermark
      ⟨⟨1, "s1", SensorTypes.proximity, "traxx"⟩, [⟨1, 0⟩, ⟨2, 0⟩, ⟨3, 0⟩]⟩
      2).2.2.2.2 ⟨1, 0⟩ ⟨2, 0⟩ ⟨3, 0⟩ (by decide) (by decide)
      ⟨1, "s1", SensorTypes.proximity, "traxx"⟩

/-- C10: every measurement item inside a message published by the PI-Web
frame loop is the `dict()` serialization carrying exactly the keys
`timestamp` and `value`; the parsed `good` flag is never among the keys. -/
theorem subitem_dict_keys (index : String → Option PIWebSubscription)
    (items : List PIWebMessageItem) :
    ∀ m ∈ (processFrame index items).1, ∀ it ∈ m.items,
      it.map Prod.fst = ["timestamp", "value"] ∧
      ∀ v, ("good", v) ∉ it := by
  induction items with
  | nil =>
    intro m hm
    simp [processFrame] at hm
  | cons item rest ih =>
    intro m hm it hit
    unfold processFrame at hm
    cases h : index item.web_id with
    | none =>
      rw [h] at hm
      simp at hm
    | some sub =>
      rw [h] at hm
      rcases List.mem_cons.mp hm with rfl | hm2
      · simp only [List.mem_map] at hit
        obtain ⟨si, _, rfl⟩ := hit
        refine ⟨rfl, ?_⟩
        intro v hv
        rcases List.mem_cons.mp hv with h1 | h1
        · have hx : "good" = "timestamp" := congrArg Prod.fst h1
          exact absurd hx (by decide)
        · rcases List.mem_cons.mp h1 with h2 | h2
          · have hx : "good" = "value" := congrArg Prod.fst h2
            exact absurd hx (by decide)
          · exact absurd h2 (List.not_mem_nil _)
      · exact ih m hm2 it hit

/-- C10 (witness): instantiation at a concrete frame item with one bad-quality
sub-item. -/
theorem subitem_dict_keys_witness :
    (PIWebMessageSubItem.dict ⟨5, PIValue.null, false⟩).map Prod.fst =
      ["timestamp", "value"] ∧
    ∀ v, ("good", v) ∉ PIWebMessageSubItem.dict ⟨5, PIValue.null, false⟩ :=
  subitem_dict_keys
    (fun w => if w = "w1" then
      some ⟨"w1", none, WebIdType.full, PIWebObjType.point, "pi_web"⟩ else none)
    [⟨"n1", "w1", [⟨5, PIValue.null, false⟩]⟩]
    ⟨⟨"w1", none, WebIdType.full, PIWebObjType.point, "pi_web"⟩,
      [PIWebMessageSubItem.dict ⟨5, PIValue.null, false⟩]⟩
    (by simp [processFrame])
    (PIWebMessageSubItem.dict ⟨5, PIValue.null, false⟩)
    (by simp)

/-- C8: `get_alerts` defaults a missing end time to now; whenever
`start_time >= end_time` it fails with the invalid-range error — and the
outcome is independent of the stored collection, i.e. before any storage
query; otherwise it yields exactly the documents with timestamp in
`[start_time, end_time]` (as rows), sorted ascending by timestamp. -/
theorem get_alerts_range_spec (collection : List DialoutDocument)
    (start_time : Int) (end_time : Option Int) (now : Int) :
    (get_alerts collection start_time none now =
      get_alerts collection start_time (some now) now) ∧
    (start_time ≥ end_time.getD now →
      ∀ collection2, get_alerts collection2 start_time end_time now =
        .error .invalidRange) ∧
    (∀ rows, get_alerts collection start_time end_time now = .ok rows →
      ∃ docs : List DialoutDocument,
        docs.Perm (collection.filter
          (fun d => start_time ≤ d.timestamp && d.timestamp ≤ end_time.getD now)) ∧
        docs.Sorted (fun a b => a.timestamp ≤ b.timestamp) ∧
        rows = docs.map DialoutDocument.toRow) := by
  refine ⟨rfl, ?_, ?_⟩
  · intro h c2
    unfold get_alerts
    rw [if_pos h]
  · intro rows h
    unfold get_alerts at h
    by_cases hr : start_time ≥ end_time.getD now
    · rw [if_pos hr] at h
      exact absurd h (by simp)
    · rw [if_neg hr] at h
      injection h with h
      haveI : IsTotal DialoutDocument (fun a b => a.timestamp ≤ b.timestamp) :=
        ⟨fun a b => Int.le_total _ _⟩
      haveI : IsTrans DialoutDocument (fun a b => a.timestamp ≤ b.timestamp) :=
        ⟨fun _ _ _ h1 h2 => le_trans h1 h2⟩
      exact ⟨_, List.perm_insertionSort _ _, List.sorted_insertionSort _ _, h.symm⟩

/-- C8 (witness): instantiation at an inverted range (error independent of
the collection) and at a valid range around one stored document. -/
theorem get_alerts_range_spec_witness :
    get_alerts [] 7 (some 3) 99 = .error .invalidRange ∧
    ∃ docs : List DialoutDocument,
      docs.Perm ([(⟨none, none, none, none, "k1", "telalert", "user1", 5⟩ :
          DialoutDocument)].filter
        (fun d => 1 ≤ d.timestamp && d.timestamp ≤ (some 10 : Option Int).getD 0)) ∧
      docs.Sorted (fun a b => a.timestamp ≤ b.timestamp) ∧
      [DialoutDocument.toRow ⟨none, none, none, none, "k1", "telalert", "user1", 5⟩] =
        docs.map DialoutDocument.toRow :=
  ⟨(get_alerts_range_spec [] 7 (some 3) 99).2.1 (by decide) [],
   (get_alerts_range_spec
      [⟨none, none, none, none, "k1", "telalert", "user1", 5⟩] 1 (some 10) 0).2.2
      [DialoutDocument.toRow ⟨none, none, none, none, "k1", "telalert", "user1", 5⟩]
      rfl⟩

/-- The bins produced by the `_create_connections` loop concatenate back to
the input list, for any fuel. -/
theorem chunkFuel_join {α : Type} (m : Nat) :
    ∀ (fuel : Nat) (l : List α), (chunkFuel m fuel l).flatten = l := by
  intro fuel
  induction fuel with
  | zero =>
    intro l
    simp [chunkFuel]
  | succ n ih =>
    intro l
    show (if l.length ≤ m + 1 then [l]
      else l.take (m + 1) :: chunkFuel m n (l.drop (m + 1))).flatten = l
    by_cases h : l.length ≤ m + 1
    · rw [if_pos h]
      simp
    · rw [if_neg h, List.flatten_cons, ih]
      exact List.take_append_drop _ l

/-- Shape of the bins produced by the `_create_connections` loop: with
sufficient fuel and a nonempty input of length `N`, there are
`ceil(N / (m+1))` bins, every bin holds at most `m + 1` subscriptions, and
every bin except possibly the last holds exactly `m + 1`. -/
theorem chunkFuel_spec {α : Type} (m : Nat) :
    ∀ (fuel : Nat) (l : List α), l.length ≤ fuel → l ≠ [] →
      (chunkFuel m fuel l).length = (l.length + m) / (m + 1) ∧
      (∀ c ∈ chunkFuel m fuel l, c.length ≤ m + 1) ∧
      (∀ i (h : i + 1 < (chunkFuel m fuel l).length),
        ((chunkFuel m fuel l).get ⟨i, Nat.lt_of_succ_lt h⟩).length = m + 1) := by
  intro fuel
  induction fuel with
  | zero =>
    intro l hlen hne
    exact absurd (List.length_eq_zero.mp (Nat.le_zero.mp hlen)) hne
  | succ n ih =>
    intro l hlen hne
    have hN : 1 ≤ l.length := List.length_pos.mpr hne
    by_cases h : l.length ≤ m + 1
    · have hchunk : chunkFuel m (n + 1) l = [l] := by
        show (if l.length ≤ m + 1 then [l]
          else l.take (m + 1) :: chunkFuel m n (l.drop (m + 1))) = [l]
        rw [if_pos h]
      rw [hchunk]
      refine ⟨?_, ?_, ?_⟩
      · have hdiv : (l.length + m) / (m + 1) = 1 :=
          Nat.div_eq_of_lt_le (by omega) (by omega)
        rw [hdiv]
        rfl
      · intro c hc
        rw [List.mem_singleton] at hc
        subst hc
        exact h
      · intro i hi
        simp at hi
    · have hchunk : chunkFuel m (n + 1) l =
          l.take (m + 1) :: chunkFuel m n (l.drop (m + 1)) := by
        show (if l.length ≤ m + 1 then [l]
          else l.take (m + 1) :: chunkFuel m n (l.drop (m + 1))) = _
        rw [if_neg h]
      have hdroplen : (l.drop (m + 1)).length = l.length - (m + 1) :=
        List.length_drop _ _
      have hlt : m + 1 < l.length := by omega
      have hdropne : l.drop (m + 1) ≠ [] := by
        intro hh
        rw [hh] at hdroplen
        simp at hdroplen
        omega
      have hdlen : (l.drop (m + 1)).length ≤ n := by omega
      obtain ⟨ih1, ih2, ih3⟩ := ih (l.drop (m + 1)) hdlen hdropne
      have htake : (l.take (m + 1)).length = m + 1 := by
        rw [List.length_take]
        omega
      rw [hchunk]
      refine ⟨?_, ?_, ?_⟩
      · simp only [List.length_cons, ih1, hdroplen]
        have hsum : l.length + m = (l.length - (m + 1) + m) + (m + 1) := by omega
        rw [hsum, Nat.add_div_right _ (Nat.succ_pos m)]
      · intro c hc
        rcases List.mem_cons.mp hc with rfl | hc2
        · exact htake.le
        · exact ih2 c hc2
      · intro i hi
        cases i with
        | zero => exact htake
        | succ j =>
          have hj : j + 1 < (chunkFuel m n (l.drop (m + 1))).length := by
            simp only [List.length_cons] at hi
            omega
          exact ih3 j hj

/-- C5: for a nonempty list of `N` new subscriptions and per-connection
capacity `M > 0`, `_create_connections` forms exactly `ceil(N / M)`
connections as sequential bins over the input: the bins concatenate back to
the input in order, each holds at most `M` subscriptions, and each bin
before the last holds exactly `M`. -/
theorem create_connections_binning {α : Type} (M : Nat) (hM : 0 < M)
    (subs : List α) (hsubs : subs ≠ []) :
    (create_connections_bins M subs).flatten = subs ∧
    (create_connections_bins M subs).length = (subs.length + M - 1) / M ∧
    (∀ c ∈ create_connections_bins M subs, c.length ≤ M) ∧
    (∀ i (h : i + 1 < (create_connections_bins M subs).length),
      ((create_connections_bins M subs).get ⟨i, Nat.lt_of_succ_lt h⟩).length = M) := by
  obtain ⟨m, rfl⟩ : ∃ m, M = m + 1 := ⟨M - 1, by omega⟩
  have hbins : create_connections_bins (m + 1) subs =
      chunkFuel m subs.length subs := by
    unfold create_connections_bins chunkGo
    rw [Nat.add_sub_cancel]
  obtain ⟨h1, h2, h3⟩ := chunkFuel_spec m subs.length subs le_rfl hsubs
  rw [hbins]
  refine ⟨chunkFuel_join m subs.length subs, ?_, h2, h3⟩
  have hnum : subs.length + (m + 1) - 1 = subs.length + m := by omega
  rw [hnum, h1]

/-- C5 (witness): 65 subscriptions with `max_subscriptions = 30` produce
exactly 3 connections with subscription counts `[30, 30, 5]`. -/
theorem create_connections_binning_witness :
    (create_connections_bins 30 (List.range 65)).flatten = List.range 65 ∧
    (create_connections_bins 30 (List.range 65)).length = (65 + 30 - 1) / 30 ∧
    (create_connections_bins 30 (List.range 65)).map List.length = [30, 30, 5] :=
  ⟨(create_connections_binning 30 (by decide) (List.range 65) (by decide)).1,
   (create_connections_binning 30 (by decide) (List.range 65) (by decide)).2.1,
   by decide⟩

/-- `deque.rotate(1)` permutes the controller list. -/
theorem dequeRotate1_perm {α : Type} (l : List α) : (dequeRotate1 l).Perm l := by
  cases h : l.reverse with
  | nil =>
    have hl : l = [] := by simpa using congrArg List.reverse h
    subst hl
    simp [dequeRotate1]
  | cons x rest =>
    have hl : l = rest.reverse ++ [x] := by
      have h2 := congrArg List.reverse h
      simpa using h2
    have hd : dequeRotate1 l = x :: rest.reverse := by
      unfold dequeRotate1
      rw [h]
    rw [hd, hl]
    exact (List.perm_append_singleton _ _).symm

/-- Invariants of the backend retry loop: the attempt count never exceeds
the fuel; a success result comes from some controller in the pool with the
credentials taken from the scopes of the returned user; a fatal result wraps the
unexpected cause raised by some controller; and when every controller
reports a protocol error, the loop consumes all its fuel and ends
unreachable. -/
theorem ad_auth_loop_spec {ε : Type} (g : String → GetUserOutcome ε) :
    ∀ (n : Nat) (cs : List String),
      (ad_auth_loop g n cs).2 ≤ n ∧
      (∀ s u, (ad_auth_loop g n cs).1 = .ok s u →
        s = u.scopes ∧ ∃ c ∈ cs, g c = .success u) ∧
      (∀ e, (ad_auth_loop g n cs).1 = .fatalError e →
        ∃ c ∈ cs, g c = .unexpected e) ∧
      ((∀ c ∈ cs, g c = .ldapError) → n ≤ cs.length →
        ad_auth_loop g n cs = (.unreachable, n)) := by
  intro n
  induction n with
  | zero =>
    intro cs
    refine ⟨le_rfl, ?_, ?_, ?_⟩
    · intro s u h
      exact AuthResult.noConfusion h
    · intro e h
      exact AuthResult.noConfusion h
    · intro _ _
      rfl
  | succ n ih =>
    intro cs
    cases cs with
    | nil =>
      refine ⟨Nat.zero_le _, ?_, ?_, ?_⟩
      · intro s u h
        exact AuthResult.noConfusion h
      · intro e h
        exact AuthResult.noConfusion h
      · intro _ hlen
        exact absurd hlen (by simp)
    | cons c cs' =>
      cases hg : g c with
      | success u =>
        have hred : ad_auth_loop g (n + 1) (c :: cs') = (.ok u.scopes u, 1) := by
          show (match g c with
            | .success u => ((AuthResult.ok u.scopes u : AuthResult ε), 1)
            | .unexpected e => (.fatalError e, 1)
            | .ldapError => ((ad_auth_loop g n (dequeRotate1 (c :: cs'))).1,
                (ad_auth_loop g n (dequeRotate1 (c :: cs'))).2 + 1)) = _
          rw [hg]
        rw [hred]
        refine ⟨by omega, ?_, ?_, ?_⟩
        · intro s u' h
          injection h with h1 h2
          subst h2
          exact ⟨h1.symm, c, List.mem_cons_self c cs', hg⟩
        · intro e h
          exact AuthResult.noConfusion h
        · intro hall _
          have hc := hall c (List.mem_cons_self c cs')
          rw [hg] at hc
          exact GetUserOutcome.noConfusion hc
      | unexpected e0 =>
        have hred : ad_auth_loop g (n + 1) (c :: cs') = (.fatalError e0, 1) := by
          show (match g c with
            | .success u => ((AuthResult.ok u.scopes u : AuthResult ε), 1)
            | .unexpected e => (.fatalError e, 1)
            | .ldapError => ((ad_auth_loop g n (dequeRotate1 (c :: cs'))).1,
                (ad_auth_loop g n (dequeRotate1 (c :: cs'))).2 + 1)) = _
          rw [hg]
        rw [hred]
        refine ⟨by omega, ?_, ?_, ?_⟩
        · intro s u h
          exact AuthResult.noConfusion h
        · intro e h
          injection h with h1
          subst h1
          exact ⟨c, List.mem_cons_self c cs', hg⟩
        · intro hall _
          have hc := hall c (List.mem_cons_self c cs')
          rw [hg] at hc
          exact GetUserOutcome.noConfusion hc
      | ldapError =>
        have hred : ad_auth_loop g (n + 1) (c :: cs') =
            ((ad_auth_loop g n (dequeRotate1 (c :: cs'))).1,
             (ad_auth_loop g n (dequeRotate1 (c :: cs'))).2 + 1) := by
          show (match g c with
            | .success u => ((AuthResult.ok u.scopes u : AuthResult ε), 1)
            | .unexpected e => (.fatalError e, 1)
            | .ldapError => ((ad_auth_loop g n (dequeRotate1 (c :: cs'))).1,
                (ad_auth_loop g n (dequeRotate1 (c :: cs'))).2 + 1)) = _
          rw [hg]
        obtain ⟨iha, ihok, ihfatal, ihall⟩ := ih (dequeRotate1 (c :: cs'))
        have hperm := dequeRotate1_perm (c :: cs')
        rw [hred]
        refine ⟨Nat.succ_le_succ iha, ?_, ?_, ?_⟩
        · intro s u h
          obtain ⟨hs, c', hc', hg'⟩ := ihok s u h
          exact ⟨hs, c', hperm.mem_iff.mp hc', hg'⟩
        · intro e h
          obtain ⟨c', hc', hg'⟩ := ihfatal e h
          exact ⟨c', hperm.mem_iff.mp hc', hg'⟩
        · intro hall hlen
          have hall2 : ∀ x ∈ dequeRotate1 (c :: cs'), g x = .ldapError := by
            intro x hx
            exact hall x (hperm.mem_iff.mp hx)
          have hlen2 : n ≤ (dequeRotate1 (c :: cs')).length := by
            rw [hperm.length_eq]
            simp only [List.length_cons] at hlen ⊢
            omega
          rw [ihall hall2 hlen2]

/-- C6: for an authenticate call carrying a valid bearer token, the backend
makes at most `len(client)` `get_user` attempts; a success at any attempt
returns credentials built from the scopes of the user together with the user; a
non-protocol error raises the fatal authentication error wrapping the
cause; when every controller fails with a protocol-level (LDAP) error, it
makes exactly `len(client)` attempts and raises the
no-domain-controller-reachable authentication error; and each
protocol-level failure rotates the client before the retry. -/
theorem backend_authenticate_failover {ε : Type} (token username : String)
    (validate : String → Option String) (controllers : List String)
    (getUser : String → String → GetUserOutcome ε)
    (hvalid : validate token = some username) :
    (backend_authenticate (some ("Bearer " ++ token)) validate controllers
      getUser).2 ≤ controllers.length ∧
    (∀ s u, (backend_authenticate (some ("Bearer " ++ token)) validate controllers
        getUser).1 = .ok s u →
      s = u.scopes ∧ ∃ c ∈ controllers, getUser c username = .success u) ∧
    (∀ e, (backend_authenticate (some ("Bearer " ++ token)) validate controllers
        getUser).1 = .fatalError e →
      ∃ c ∈ controllers, getUser c username = .unexpected e) ∧
    ((∀ c ∈ controllers, getUser c username = .ldapError) →
      backend_authenticate (some ("Bearer " ++ token)) validate controllers
        getUser = (.unreachable, controllers.length)) ∧
    (∀ (c : String) (cs : List String) (n : Nat),
      getUser c username = .ldapError →
      ad_auth_loop (fun x => getUser x username) (n + 1) (c :: cs) =
        ((ad_auth_loop (fun x => getUser x username) n (dequeRotate1 (c :: cs))).1,
         (ad_auth_loop (fun x => getUser x username) n (dequeRotate1 (c :: cs))).2 + 1)) := by
  have hred : backend_authenticate (some ("Bearer " ++ token)) validate
      controllers getUser =
      ad_auth_loop (fun c => getUser c username) controllers.length controllers := by
    show (match validate token with
      | none => ((.anonymous, 0) : AuthResult ε × Nat)
      | some username2 =>
        ad_auth_loop (fun c => getUser c username2) controllers.length controllers) = _
    rw [hvalid]
  rw [hred]
  obtain ⟨l1, l2, l3, l4⟩ :=
    ad_auth_loop_spec (fun c => getUser c username) controllers.length controllers
  refine ⟨l1, l2, l3, fun hall => l4 hall le_rfl, ?_⟩
  intro c cs n hg
  show (match getUser c username with
    | .success u => ((AuthResult.ok u.scopes u : AuthResult ε), 1)
    | .unexpected e => (.fatalError e, 1)
    | .ldapError => ((ad_auth_loop (fun x => getUser x username) n
          (dequeRotate1 (c :: cs))).1,
        (ad_auth_loop (fun x => getUser x username) n
          (dequeRotate1 (c :: cs))).2 + 1)) = _
  rw [hg]

/-- C6 (witness): two controllers, the first failing with a protocol error
and the second succeeding — the backend makes at most two attempts. -/
theorem backend_authenticate_failover_witness :
    (backend_authenticate (some ("Bearer " ++ "tok"))
      (fun t => if t = "tok" then some "alice" else none) ["dc1", "dc2"]
      (fun c u => if c = "dc2" && u = "alice" then
        (GetUserOutcome.success ⟨["admin"], "alice"⟩ : GetUserOutcome Unit)
      else .ldapError)).2 ≤ 2 :=
  (backend_authenticate_failover "tok" "alice"
    (fun t => if t = "tok" then some "alice" else none) ["dc1", "dc2"]
    (fun c u => if c = "dc2" && u = "alice" then
      (GetUserOutcome.success ⟨["admin"], "alice"⟩ : GetUserOutcome Unit)
    else .ldapError) rfl).1

end CommandCenter
